import Mathlib

/-!
Shallow embedding of the reactive state layer of the User-Management-Table
repository: the NgRx todos store (reducer, effects lane, facade, component)
and the standalone user-table derived-view pipeline
(filter / sort / paginate / debounced search).

Sources embedded:
* `todos.reducer` (reducer over `TodosState`), `todos.action`,
  `TodosFacade`, the `Todos` component;
* `TodosEffects.loadTodos$` (an RxJS `switchMap` lane), modelled by the
  generation-counter semantics of `switchMap`: a new source emission
  unsubscribes the in-flight inner observable, so only the settlement of
  the latest generation is delivered;
* `UserTableComponent`: `filteredUsers`, `sortedUsers`, `paginatedUsers`,
  `totalPages`, the debounced `searchSubject` pipe
  (`debounceTime(300), distinctUntilChanged()`), `goToPage`.

JavaScript specifics made explicit:
* `Date.now()` (used by the reducer's add handler to mint ids) is an
  explicit `now : Nat` parameter;
* `Array.prototype.sort` (stable since ES2019) is modelled by Mathlib's
  stable `List.insertionSort` on the comparator's `≤ 0` relation;
* `String.prototype.localeCompare` is modelled as lexicographic string
  comparison (the natural text ordering);
* `String.prototype.toLowerCase`, `trim`, `includes` are modelled by
  `String.toLower`, `String.trim` and an explicit substring search.
-/

/-- A todo record: `{ id: string, title: string, completed: boolean }`. -/
structure Todo where
  id : String
  title : String
  completed : Bool
deriving DecidableEq, Repr

/-- `TodosState` from `todos.reducer`: items, loading flag, nullable error. -/
structure TodosState where
  todos : List Todo
  loading : Bool
  error : Option String
deriving DecidableEq, Repr

/-- `initialState` from `todos.reducer`. -/
def initialState : TodosState := { todos := [], loading := false, error := none }

/-- The command alphabet of `todos.action`. -/
inductive TodosAction where
  | loadTodos
  | loadTodosSuccess (todos : List Todo)
  | loadTodosFailure (error : String)
  | addTodo (title : String)
  | toggleTodo (id : String)
  | deleteTodo (id : String)
deriving DecidableEq, Repr

/-- `Date.now().toString()`: the wall-clock reading rendered as a string.
The clock value is an explicit parameter of the embedding. -/
def dateNowToString (now : Nat) : String := toString now

/-- ASCII lower-casing of one character (`String.prototype.toLowerCase`
restricted to ASCII, which covers all data in this program). -/
def jsCharToLower (c : Char) : Char :=
  if 'A' ≤ c ∧ c ≤ 'Z' then Char.ofNat (c.toNat + 32) else c

/-- `String.prototype.toLowerCase` (ASCII model). -/
def jsToLower (s : String) : String := ⟨s.data.map jsCharToLower⟩

/-- The ASCII whitespace characters removed by `String.prototype.trim`. -/
def jsIsWhitespace (c : Char) : Bool :=
  c = ' ' || c = '\t' || c = '\n' || c = '\r' || c = '\x0b' || c = '\x0c'

/-- `String.prototype.trim` (ASCII model): strip leading and trailing
whitespace. -/
def jsTrim (s : String) : String :=
  ⟨((s.data.dropWhile jsIsWhitespace).reverse.dropWhile jsIsWhitespace).reverse⟩

/-- The per-record function of the toggle handler:
`todo.id === id ? { ...todo, completed: !todo.completed } : todo`. -/
def toggleFn (id : String) (todo : Todo) : Todo :=
  if todo.id = id then { todo with completed := !todo.completed } else todo

/-- `todosReducer` from `todos.reducer`, case by case.  The add handler
reads the wall clock (`Date.now().toString()`), so the clock reading
`now` is an explicit argument. -/
def todosReducer (now : Nat) (state : TodosState) (action : TodosAction) : TodosState :=
  match action with
  | .loadTodos => { state with loading := true, error := none }
  | .loadTodosSuccess todos => { state with todos := todos, loading := false }
  | .loadTodosFailure e => { state with loading := false, error := some e }
  | .addTodo title =>
      let newTodo : Todo := { id := dateNowToString now, title := title, completed := false }
      { state with todos := state.todos ++ [newTodo] }
  | .toggleTodo id =>
      { state with todos := state.todos.map (toggleFn id) }
  | .deleteTodo id =>
      { state with todos := state.todos.filter fun todo => todo.id ≠ id }

/-- Replaying a command sequence: each step carries the clock reading the
reducer would observe at that dispatch. -/
def reduceTrace : TodosState → List (Nat × TodosAction) → TodosState
  | s, [] => s
  | s, (n, a) :: rest => reduceTrace (todosReducer n s a) rest

/-- The ids of the records in a list, with no duplicates. -/
def noDupIds (l : List Todo) : Prop := (l.map Todo.id).Nodup

instance (l : List Todo) : Decidable (noDupIds l) := by
  unfold noDupIds; infer_instance

/-- `TodosFacade.addTodo`: dispatches `addTodo({ title })` unconditionally
(no validation in the facade). -/
def facadeAddDispatched (title : String) : List TodosAction :=
  [TodosAction.addTodo title]

/-- `Todos.add` from the `Todos` component: returns early when the trimmed
title is empty, otherwise hands the trimmed title to the facade, which
dispatches `addTodo`. Result: the list of commands dispatched to the store. -/
def componentAdd (newTitle : String) : List TodosAction :=
  if jsTrim newTitle = "" then [] else facadeAddDispatched (jsTrim newTitle)

/-- Dispatching a list of commands to the store in order (all reduced with
clock reading `now`). -/
def dispatchAll (now : Nat) (s : TodosState) (acts : List TodosAction) : TodosState :=
  acts.foldl (todosReducer now) s

/-! ### The load lane of `TodosEffects.loadTodos$`

`loadTodos$` pipes `ofType(loadTodos)` through `switchMap` into
`todosService.getTodos()`, mapping a success to `loadTodosSuccess` and an
error to `loadTodosFailure`.  `switchMap` (RxJS) unsubscribes the
in-flight inner observable whenever a new outer value arrives, so a
settlement is delivered only if no newer `loadTodos` has arrived since
its own request started.  We model the lane by the equivalent generation
counter: the k-th `loadTodos` arrival is generation `k` (1-based), and a
settlement carries the generation of the request it answers. -/

/-- Outcome of one `getTodos()` Data Source call. -/
inductive LoadOutcome where
  | ok (todos : List Todo)
  | err (msg : String)
deriving DecidableEq, Repr

/-- The follow-up command `loadTodos$` maps a settlement to. -/
def followUpAction : LoadOutcome → TodosAction
  | .ok todos => .loadTodosSuccess todos
  | .err msg => .loadTodosFailure msg

/-- An event on the load lane: a new `loadTodos` arrival, or the
settlement of the Data Source call started by request number `gen`. -/
inductive LaneEvent where
  | request
  | settle (gen : Nat) (r : LoadOutcome)
deriving DecidableEq, Repr

/-- Number of `request` events in a lane trace. -/
def reqCount : List LaneEvent → Nat
  | [] => 0
  | .request :: rest => reqCount rest + 1
  | .settle _ _ :: rest => reqCount rest

/-- Running the `switchMap` lane over a trace of events, starting with
`cur` requests already seen: the follow-up command of a settlement is
dispatched only when its generation is still the current one. -/
def switchMapRun : Nat → List LaneEvent → List TodosAction
  | _, [] => []
  | cur, .request :: rest => switchMapRun (cur + 1) rest
  | cur, .settle g r :: rest =>
      (if g = cur then [followUpAction r] else []) ++ switchMapRun cur rest

/-! ### The user-table derived-view pipeline (`UserTableComponent`) -/

/-- A user row: `{ id: number, name: string, email: string, age: number }`. -/
structure User where
  id : Int
  name : String
  email : String
  age : Int
deriving DecidableEq, Repr

/-- `mockUsers` from `UserTableComponent`. -/
def mockUsers : List User :=
  [ { id := 1, name := "Alice Johnson", email := "alice@example.com", age := 28 },
    { id := 2, name := "Bob Smith", email := "bob@example.com", age := 34 },
    { id := 3, name := "Charlie Brown", email := "charlie@example.com", age := 22 },
    { id := 4, name := "David Wilson", email := "david@example.com", age := 30 },
    { id := 5, name := "Eva Adams", email := "eva@example.com", age := 27 },
    { id := 6, name := "Frank Miller", email := "frank@example.com", age := 35 },
    { id := 7, name := "Grace Lee", email := "grace@example.com", age := 29 },
    { id := 8, name := "Henry Ford", email := "henry@example.com", age := 33 } ]

/-- Does `l` start with `pat`? (helper for `jsIncludes`). -/
def startsWithChars : List Char → List Char → Bool
  | [], _ => true
  | _ :: _, [] => false
  | a :: as, b :: bs => a = b && startsWithChars as bs

/-- Does `l` contain `pat` as a contiguous run? (helper for `jsIncludes`). -/
def hasSubChars (pat : List Char) : List Char → Bool
  | [] => startsWithChars pat []
  | b :: bs => startsWithChars pat (b :: bs) || hasSubChars pat bs

/-- `String.prototype.includes`: `s.includes(pat)`. -/
def jsIncludes (s pat : String) : Bool := hasSubChars pat.data s.data

/-- `filteredUsers` from `UserTableComponent`: lower-case the search term;
a blank term passes every user; otherwise keep users whose lowered name
or email contains the term as a substring. -/
def filteredUsers (users : List User) (searchTerm : String) : List User :=
  let term := jsToLower searchTerm
  if jsTrim term = "" then users
  else users.filter fun user =>
    jsIncludes (jsToLower user.name) term || jsIncludes (jsToLower user.email) term

/-- `keyof User`: the four sortable fields (`sortColumn` ranges over these,
or is null). -/
inductive UserKey where
  | id
  | name
  | email
  | age
deriving DecidableEq, Repr

/-- Sort direction. -/
inductive SortDir where
  | asc
  | desc
deriving DecidableEq, Repr

/-- Lexicographic three-way comparison of character lists (negative, zero
or positive as the first is below, equal to, or above the second). -/
def lexCompareChars : List Char → List Char → Int
  | [], [] => 0
  | [], _ :: _ => -1
  | _ :: _, [] => 1
  | a :: as, b :: bs => if a < b then -1 else if b < a then 1 else lexCompareChars as bs

/-- `a.localeCompare(b)` modelled as lexicographic string comparison (the
spec's natural text ordering). -/
def localeCompare (a b : String) : Int := lexCompareChars a.data b.data

/-- The comparator passed to `users.sort` in `sortedUsers`: strings via
`localeCompare`, numbers via subtraction, with the argument swap on
descending. -/
def userComparator (column : UserKey) (dir : SortDir) (a b : User) : Int :=
  match column with
  | .name => match dir with
    | .asc => localeCompare a.name b.name
    | .desc => localeCompare b.name a.name
  | .email => match dir with
    | .asc => localeCompare a.email b.email
    | .desc => localeCompare b.email a.email
  | .id => match dir with
    | .asc => a.id - b.id
    | .desc => b.id - a.id
  | .age => match dir with
    | .asc => a.age - b.age
    | .desc => b.age - a.age

/-- `sortedUsers` from `UserTableComponent`: a copy of the filtered list,
returned as-is when no sort column is set, otherwise sorted by the
comparator.  `Array.prototype.sort` is stable (ES2019), and a stable sort
by a total preorder has a unique result, so the stable
`List.insertionSort` on the comparator's `≤ 0` relation is a faithful
model. -/
def sortedUsers (users : List User) (column : Option UserKey) (dir : SortDir) : List User :=
  match column with
  | none => users
  | some c => users.insertionSort fun a b => userComparator c dir a b ≤ 0

/-- `Math.ceil(n / size)` for natural `n` and positive `size`. -/
def ceilDiv (n size : Nat) : Nat := (n + size - 1) / size

/-- `totalPages` from `UserTableComponent`:
`Math.ceil(sortedUsers.length / pageSize)` — note: no `max(1, _)` clamp. -/
def totalPagesCalc (users : List User) (searchTerm : String)
    (column : Option UserKey) (dir : SortDir) (pageSize : Nat) : Nat :=
  ceilDiv (sortedUsers (filteredUsers users searchTerm) column dir).length pageSize

/-- `paginatedUsers` from `UserTableComponent`: the slice
`[(page-1)*size, page*size)` of the sorted list. -/
def paginatedUsers (users : List User) (searchTerm : String)
    (column : Option UserKey) (dir : SortDir) (page size : Nat) : List User :=
  ((sortedUsers (filteredUsers users searchTerm) column dir).drop ((page - 1) * size)).take size

/-! ### The debounced search commit (`searchSubject` pipe) -/

/-- The state the `searchSubject` subscription acts on:
`distinctUntilChanged()`'s memory of the last value it let through, the
committed `searchTerm` signal and the `currentPage` signal. -/
structure SearchViewState where
  lastEmitted : Option String
  searchTerm : String
  currentPage : Nat
deriving DecidableEq, Repr

/-- Delivery of one debounced search value: `distinctUntilChanged()`
drops it when it equals (plain string equality) the last value let
through; otherwise the subscriber runs `searchTerm.set(term)` and
`currentPage.set(1)`. -/
def onDebouncedSearch (vs : SearchViewState) (term : String) : SearchViewState :=
  if vs.lastEmitted = some term then vs
  else { lastEmitted := some term, searchTerm := term, currentPage := 1 }

/-! ### Helper lemmas about the reducer -/

/-- Toggling a record never changes its id. -/
lemma toggleFn_id (id : String) (t : Todo) : (toggleFn id t).id = t.id := by
  unfold toggleFn; split <;> rfl

/-- Toggling the same id twice restores a record. -/
lemma toggleFn_toggleFn (id : String) (t : Todo) : toggleFn id (toggleFn id t) = t := by
  obtain ⟨tid, ttitle, tc⟩ := t
  by_cases h : tid = id
  · simp [toggleFn, h]
  · simp [toggleFn, h]

/-- The clock reading only matters to the `addTodo` handler. -/
lemma todosReducer_clock_irrelevant (n1 n2 : Nat) (s : TodosState) (a : TodosAction)
    (h : ∀ t, a ≠ TodosAction.addTodo t) :
    todosReducer n1 s a = todosReducer n2 s a := by
  cases a with
  | loadTodos => rfl
  | loadTodosSuccess todos => rfl
  | loadTodosFailure e => rfl
  | addTodo t => exact absurd rfl (h t)
  | toggleTodo id => rfl
  | deleteTodo id => rfl

/-! ### Claim theorems: the reducer -/

/-- C7: for every state, reducing `loadTodos` (LoadRequested) yields
`loading = true` and `error = none`, whatever they were before, and
leaves `todos` unchanged. -/
theorem loadRequested_sets_loading_clears_error (now : Nat) (s : TodosState) :
    (todosReducer now s TodosAction.loadTodos).loading = true ∧
    (todosReducer now s TodosAction.loadTodos).error = none ∧
    (todosReducer now s TodosAction.loadTodos).todos = s.todos :=
  ⟨rfl, rfl, rfl⟩

/-- C10: reducing `loadTodosSuccess items` changes only the `todos` and
`loading` fields; in particular the `error` field is exactly the previous
one (a previously set error is not cleared by the success itself). -/
theorem loadSucceeded_frame (now : Nat) (s : TodosState) (items : List Todo) :
    todosReducer now s (TodosAction.loadTodosSuccess items)
      = { s with todos := items, loading := false } :=
  rfl

/-- C8: toggle is an involution — reducing `toggleTodo id` twice (with any
clock readings) returns the whole state, items list included, to its
original value. -/
theorem toggle_twice_restores (now1 now2 : Nat) (s : TodosState) (i : String) :
    todosReducer now2 (todosReducer now1 s (TodosAction.toggleTodo i))
        (TodosAction.toggleTodo i) = s := by
  obtain ⟨todos, loading, e⟩ := s
  simp only [todosReducer, List.map_map]
  congr 1
  have h : ∀ t ∈ todos, (toggleFn i ∘ toggleFn i) t = id t := fun t _ => toggleFn_toggleFn i t
  rw [List.map_congr_left h, List.map_id]

/-- C2, counterexample: from a state whose single item already has id
`"7"`, reducing `addTodo` at clock reading 7 (so `Date.now().toString()`
is `"7"`) appends a second record with the same id — the reducer has no
freshness check. -/
theorem reduce_nodup_counterexample :
    noDupIds ([{ id := "7", title := "a", completed := false }] : List Todo) ∧
    ¬ noDupIds (todosReducer 7
        { todos := [{ id := "7", title := "a", completed := false }],
          loading := false, error := none }
        (TodosAction.addTodo "b")).todos := by
  decide

/-- C2 (amended): every reduction step preserves pairwise-distinct ids,
provided the freshly minted id of an `addTodo` step does not already
occur in the state and the payload of a `loadTodosSuccess` step itself
has pairwise-distinct ids; the code checks neither condition. -/
theorem reduce_preserves_nodup (now : Nat) (s : TodosState) (a : TodosAction)
    (h : noDupIds s.todos)
    (hadd : ∀ t, a = TodosAction.addTodo t → dateNowToString now ∉ s.todos.map Todo.id)
    (hload : ∀ items, a = TodosAction.loadTodosSuccess items → noDupIds items) :
    noDupIds (todosReducer now s a).todos := by
  cases a with
  | loadTodos => exact h
  | loadTodosSuccess items => exact hload items rfl
  | loadTodosFailure e => exact h
  | addTodo t =>
      have hid := hadd t rfl
      unfold noDupIds at h ⊢
      simp only [todosReducer, List.map_append, List.map_cons, List.map_nil]
      rw [List.nodup_append]
      refine ⟨h, List.nodup_singleton _, ?_⟩
      intro x hx hx1
      simp only [List.mem_singleton] at hx1
      exact hid (hx1 ▸ hx)
  | toggleTodo i =>
      unfold noDupIds at h ⊢
      have hcomp : Todo.id ∘ toggleFn i = Todo.id := funext fun t => toggleFn_id i t
      simpa only [todosReducer, List.map_map, hcomp] using h
  | deleteTodo i =>
      unfold noDupIds at h ⊢
      exact List.Nodup.sublist ((List.filter_sublist _).map Todo.id) h

/-- Witness for `reduce_preserves_nodup`: an `addTodo` step whose minted
id `"5"` is fresh for a state with ids `["1"]`. -/
theorem reduce_preserves_nodup_witness :
    noDupIds (todosReducer 5
        { todos := [{ id := "1", title := "t", completed := false }],
          loading := false, error := none }
        (TodosAction.addTodo "x")).todos :=
  reduce_preserves_nodup 5 _ _ (by decide)
    (fun _ _ => by decide)
    (fun items hcontra => TodosAction.noConfusion hcontra)

/-- C1, counterexample: the id appended by the add handler is
`Date.now().toString()`, a function of the wall clock, not of the state
and command alone — reducing the same command from the same state at two
different clock readings yields different states. -/
theorem reduce_deterministic_counterexample :
    todosReducer 1 initialState (TodosAction.addTodo "x")
      ≠ todosReducer 2 initialState (TodosAction.addTodo "x") := by
  decide

/-- C1 (amended): `reduce` is deterministic once the wall-clock reading
consumed by the add handler is counted among the inputs: two replays of
the same command sequence from the same initial state whose clock
readings agree at every `addTodo` step (they may differ everywhere else)
yield identical final states. -/
theorem reduceTrace_deterministic (tr1 tr2 : List (Nat × TodosAction)) (s : TodosState)
    (hact : tr1.map Prod.snd = tr2.map Prod.snd)
    (hclk : ∀ i n1 n2 t, tr1.get? i = some (n1, TodosAction.addTodo t) →
        tr2.get? i = some (n2, TodosAction.addTodo t) → n1 = n2) :
    reduceTrace s tr1 = reduceTrace s tr2 := by
  induction tr1 generalizing tr2 s with
  | nil =>
      cases tr2 with
      | nil => rfl
      | cons hd tl => simp at hact
  | cons hd tl ih =>
      cases tr2 with
      | nil => simp at hact
      | cons hd2 tl2 =>
          obtain ⟨n1, a1⟩ := hd
          obtain ⟨n2, a2⟩ := hd2
          simp only [List.map_cons, List.cons.injEq] at hact
          obtain ⟨ha, htl⟩ := hact
          cases ha
          have hstep : todosReducer n1 s a1 = todosReducer n2 s a1 := by
            cases a1 with
            | loadTodos => rfl
            | loadTodosSuccess todos => rfl
            | loadTodosFailure e => rfl
            | addTodo t =>
                have hn := hclk 0 n1 n2 t rfl rfl
                rw [hn]
            | toggleTodo i => rfl
            | deleteTodo i => rfl
          show reduceTrace (todosReducer n1 s a1) tl = reduceTrace (todosReducer n2 s a1) tl2
          rw [hstep]
          exact ih tl2 (todosReducer n2 s a1) htl
            (fun i m1 m2 t h1 h2 => hclk (i + 1) m1 m2 t (by simpa using h1) (by simpa using h2))

/-- Witness for `reduceTrace_deterministic`: the same two commands
replayed with clock readings that differ only at the non-add step. -/
theorem reduceTrace_deterministic_witness :
    reduceTrace initialState
        [(5, TodosAction.addTodo "a"), (99, TodosAction.loadTodos)]
      = reduceTrace initialState
        [(5, TodosAction.addTodo "a"), (3, TodosAction.loadTodos)] :=
  reduceTrace_deterministic _ _ _ rfl (by
    intro i n1 n2 t h1 h2
    match i with
    | 0 =>
        simp at h1 h2
        omega
    | 1 => simp at h1
    | i + 2 => simp at h1)

/-! ### Claim theorems: facade / component validation -/

/-- C3, counterexample: the Facade's `addTodo` performs no validation —
for the whitespace-only title `"   "` it still dispatches an `addTodo`
command, and reducing that command changes the store state. -/
theorem facade_add_blank_counterexample :
    jsTrim "   " = "" ∧
    facadeAddDispatched "   " ≠ [] ∧
    todosReducer 0 initialState (TodosAction.addTodo "   ") ≠ initialState := by
  decide

/-- C3 (amended): the blank-title validation lives in the `Todos`
component's `add`, not in the Facade: for every title whose trim is
empty, the component dispatches no command and the store state is
unchanged (the Facade's own `addTodo` dispatches unconditionally). -/
theorem componentAdd_blank_noop (title : String) (now : Nat) (s : TodosState)
    (h : jsTrim title = "") :
    componentAdd title = [] ∧ dispatchAll now s (componentAdd title) = s := by
  have hc : componentAdd title = [] := by
    unfold componentAdd
    rw [if_pos h]
  exact ⟨hc, by rw [hc]; rfl⟩

/-- Witness for `componentAdd_blank_noop` at the whitespace title `"   "`. -/
theorem componentAdd_blank_noop_witness :
    componentAdd "   " = [] ∧ dispatchAll 0 initialState (componentAdd "   ") = initialState :=
  componentAdd_blank_noop "   " 0 initialState (by decide)

/-! ### Claim theorems: the debounced search commit -/

/-- C6, counterexample: the committed query is deduplicated with plain
`distinctUntilChanged()` string equality, not after trimming and
case-folding.  After `"learn"` has settled, the input `"LEARN"` — equal
to it after trim + case-fold — is recommitted: the committed query
changes and `currentPage` is reset to 1 (here from 2). -/
theorem search_dedup_counterexample :
    jsToLower (jsTrim "LEARN") = jsToLower (jsTrim "learn") ∧
    onDebouncedSearch
        { lastEmitted := some "learn", searchTerm := "learn", currentPage := 2 } "LEARN"
      ≠ { lastEmitted := some "learn", searchTerm := "learn", currentPage := 2 } ∧
    (onDebouncedSearch
        { lastEmitted := some "learn", searchTerm := "learn", currentPage := 2 }
        "LEARN").currentPage = 1 := by
  decide

/-- C6 (amended): the dedup is by exact string equality on the raw
debounced value: a delivered input equal to the previously committed one
character-for-character causes no recommit — the committed query,
`currentPage` and the whole view state are unchanged. -/
theorem search_dedup_exact_equality (vs : SearchViewState) (term : String)
    (h : vs.lastEmitted = some term) :
    onDebouncedSearch vs term = vs := by
  unfold onDebouncedSearch
  rw [if_pos h]

/-- Witness for `search_dedup_exact_equality`: re-delivering exactly
`"learn"` after `"learn"` has settled is a no-op. -/
theorem search_dedup_exact_equality_witness :
    onDebouncedSearch
        { lastEmitted := some "learn", searchTerm := "learn", currentPage := 2 } "learn"
      = { lastEmitted := some "learn", searchTerm := "learn", currentPage := 2 } :=
  search_dedup_exact_equality _ _ rfl

/-! ### Claim theorems: the load lane -/

/-- Splitting a lane run at an append: the counter after the first part
has advanced by the number of requests in it. -/
lemma switchMapRun_append (c : Nat) (xs ys : List LaneEvent) :
    switchMapRun c (xs ++ ys) = switchMapRun c xs ++ switchMapRun (c + reqCount xs) ys := by
  induction xs generalizing c with
  | nil => simp [switchMapRun, reqCount]
  | cons e rest ih =>
      cases e with
      | request =>
          show switchMapRun (c + 1) (rest ++ ys)
            = switchMapRun (c + 1) rest ++ switchMapRun (c + (reqCount rest + 1)) ys
          rw [ih]
          have harith : c + 1 + reqCount rest = c + (reqCount rest + 1) := by omega
          rw [harith]
      | settle g r =>
          show (if g = c then [followUpAction r] else []) ++ switchMapRun c (rest ++ ys)
            = ((if g = c then [followUpAction r] else []) ++ switchMapRun c rest)
              ++ switchMapRun (c + reqCount rest) ys
          rw [ih, List.append_assoc]

/-- C5: within the load lane, a settlement that has been superseded
(before it arrives, strictly more `loadTodos` requests have been seen
than its own generation number) is discarded — the lane's dispatched
output is exactly as if the settlement event never occurred, so no
`loadTodosSuccess`/`loadTodosFailure` of a superseded request ever
reaches the store. -/
theorem superseded_settlement_discarded (pre post : List LaneEvent) (g : Nat)
    (r : LoadOutcome) (hsup : g < reqCount pre) :
    switchMapRun 0 (pre ++ LaneEvent.settle g r :: post) = switchMapRun 0 (pre ++ post) := by
  rw [switchMapRun_append, switchMapRun_append]
  congr 1
  have hne : ¬ g = reqCount pre := by omega
  simp [switchMapRun, hne]

/-- Witness for `superseded_settlement_discarded`: two rapid `loadTodos`
requests; the first request's late success settles after the second
request arrived, and its follow-up is discarded. -/
theorem superseded_settlement_discarded_witness :
    switchMapRun 0
        ([LaneEvent.request, LaneEvent.request]
          ++ LaneEvent.settle 1 (LoadOutcome.ok []) :: [LaneEvent.settle 2 (LoadOutcome.ok [])])
      = switchMapRun 0
        ([LaneEvent.request, LaneEvent.request] ++ [LaneEvent.settle 2 (LoadOutcome.ok [])]) :=
  superseded_settlement_discarded _ _ 1 _ (by decide)

/-! ### Claim theorems: pagination -/

/-- Sorting never changes the number of rows. -/
lemma sortedUsers_length (users : List User) (column : Option UserKey) (dir : SortDir) :
    (sortedUsers users column dir).length = users.length := by
  cases column with
  | none => rfl
  | some c => exact List.length_insertionSort _ users

/-- C4, counterexample: with the shipped collection and the query
`"zzz"` the filtered set is empty, and the code's
`Math.ceil(sorted.length / pageSize)` yields `0`, while the claimed
formula `max(1, ceil(n / pageSize))` yields `1`. -/
theorem totalPages_claim_counterexample :
    (0 : Nat) < 5 ∧
    totalPagesCalc mockUsers "zzz" (some UserKey.name) SortDir.asc 5 = 0 ∧
    max 1 (ceilDiv (filteredUsers mockUsers "zzz").length 5) = 1 := by
  decide

/-- C4 (amended): for every collection, query, sort setting and
`pageSize > 0`, `totalPages` is `ceil(n / pageSize)` with no minimum-1
clamp, where `n` is the filtered (= filtered-and-sorted) count: it
equals `max(1, ceil(n / pageSize))` whenever the filtered set is
nonempty, but is `0` when the filtered set is empty. -/
theorem totalPages_no_min_clamp (users : List User) (q : String) (column : Option UserKey)
    (dir : SortDir) (pageSize : Nat) (hps : 0 < pageSize) :
    totalPagesCalc users q column dir pageSize
      = if (filteredUsers users q).length = 0 then 0
        else max 1 (ceilDiv (filteredUsers users q).length pageSize) := by
  unfold totalPagesCalc
  rw [sortedUsers_length]
  by_cases h : (filteredUsers users q).length = 0
  · rw [if_pos h, h]
    unfold ceilDiv
    exact Nat.div_eq_of_lt (by omega)
  · rw [if_neg h]
    have h1 : 1 ≤ ceilDiv (filteredUsers users q).length pageSize := by
      unfold ceilDiv
      rw [Nat.le_div_iff_mul_le hps]
      omega
    rw [Nat.max_eq_right h1]

/-- Witness for `totalPages_no_min_clamp`: the shipped collection, empty
query, sorted by name ascending, page size 5: 8 rows give 2 pages. -/
theorem totalPages_no_min_clamp_witness :
    totalPagesCalc mockUsers "" (some UserKey.name) SortDir.asc 5
      = if (filteredUsers mockUsers "").length = 0 then 0
        else max 1 (ceilDiv (filteredUsers mockUsers "").length 5) :=
  totalPages_no_min_clamp mockUsers "" (some UserKey.name) SortDir.asc 5 (by decide)

/-! ### Claim theorems: sorting -/

/-- Lexicographic comparison is antisymmetric: swapping the arguments
negates the result. -/
lemma lexCompareChars_anti : ∀ a b : List Char, lexCompareChars b a = -lexCompareChars a b
  | [], [] => rfl
  | [], _ :: _ => rfl
  | _ :: _, [] => rfl
  | a :: as, b :: bs => by
      simp only [lexCompareChars]
      rcases lt_trichotomy a b with h | h | h
      · simp [h, lt_asymm h]
      · subst h
        simp only [lt_irrefl, if_false]
        exact lexCompareChars_anti as bs
      · simp [h, lt_asymm h]

/-- Lexicographic comparison returns zero exactly on equal lists. -/
lemma lexCompareChars_eq_zero_iff : ∀ a b : List Char, lexCompareChars a b = 0 ↔ a = b
  | [], [] => by simp [lexCompareChars]
  | [], _ :: _ => by simp [lexCompareChars]
  | _ :: _, [] => by simp [lexCompareChars]
  | a :: as, b :: bs => by
      simp only [lexCompareChars, List.cons.injEq]
      rcases lt_trichotomy a b with h | h | h
      · rw [if_pos h]
        constructor
        · intro hc; exact absurd hc (by decide)
        · rintro ⟨h1, h2⟩; exact absurd h1 h.ne
      · subst h
        rw [if_neg (lt_irrefl a), if_neg (lt_irrefl a)]
        simp [lexCompareChars_eq_zero_iff as bs]
      · rw [if_neg (lt_asymm h), if_pos h]
        constructor
        · intro hc; exact absurd hc (by decide)
        · rintro ⟨h1, h2⟩; exact absurd h1 (ne_of_gt h)

/-- The `≤ 0` half-plane of lexicographic comparison is transitive. -/
lemma lexCompareChars_le_trans : ∀ a b c : List Char,
    lexCompareChars a b ≤ 0 → lexCompareChars b c ≤ 0 → lexCompareChars a c ≤ 0
  | [], _, c => fun _ _ => by cases c <;> simp [lexCompareChars]
  | a :: as, [], c => fun h1 _ => by simp [lexCompareChars] at h1
  | a :: as, b :: bs, [] => fun _ h2 => by simp [lexCompareChars] at h2
  | a :: as, b :: bs, c :: cs => fun h1 h2 => by
      simp only [lexCompareChars] at h1 h2 ⊢
      rcases lt_trichotomy a b with hab | hab | hab
      · rcases lt_trichotomy b c with hbc | hbc | hbc
        · rw [if_pos (lt_trans hab hbc)]; decide
        · subst hbc; rw [if_pos hab]; decide
        · rw [if_neg (lt_asymm hbc), if_pos hbc] at h2; omega
      · subst hab
        rw [if_neg (lt_irrefl a), if_neg (lt_irrefl a)] at h1
        rcases lt_trichotomy a c with hac | hac | hac
        · rw [if_pos hac]; decide
        · subst hac
          rw [if_neg (lt_irrefl a), if_neg (lt_irrefl a)] at h2 ⊢
          exact lexCompareChars_le_trans as bs cs h1 h2
        · rw [if_neg (lt_asymm hac), if_pos hac] at h2; omega
      · rw [if_neg (lt_asymm hab), if_pos hab] at h1; omega

/-- `localeCompare` returns zero exactly on equal strings. -/
lemma localeCompare_eq_zero_iff (a b : String) : localeCompare a b = 0 ↔ a = b := by
  unfold localeCompare
  rw [lexCompareChars_eq_zero_iff]
  exact String.toList_inj

/-- Sorting a list by a swapped antisymmetric, `≤ 0`-transitive comparator
yields the reverse of sorting by the comparator itself, provided no two
elements of the list tie.  (A stable sort's output is the unique sorted
permutation once ties are excluded.) -/
lemma insertionSort_by_swapped_comparator_reverse {α : Type} (cmp : α → α → Int)
    (hanti : ∀ a b, cmp b a = -cmp a b)
    (htrans : ∀ a b c, cmp a b ≤ 0 → cmp b c ≤ 0 → cmp a c ≤ 0)
    (l : List α) (hne : l.Pairwise fun a b => cmp a b ≠ 0) :
    List.insertionSort (fun a b => cmp b a ≤ 0) l
      = (List.insertionSort (fun a b => cmp a b ≤ 0) l).reverse := by
  have hanti' : ∀ a b : α, cmp a b ≤ 0 ∨ cmp b a ≤ 0 := fun a b => by
    have := hanti a b; omega
  haveI : IsTrans α (fun a b => cmp a b ≤ 0) := ⟨fun a b c => htrans a b c⟩
  haveI : IsTotal α (fun a b => cmp a b ≤ 0) := ⟨hanti'⟩
  haveI : IsTrans α (fun a b => cmp b a ≤ 0) := ⟨fun a b c h1 h2 => htrans c b a h2 h1⟩
  haveI : IsTotal α (fun a b => cmp b a ≤ 0) := ⟨fun a b => Or.symm (hanti' a b)⟩
  have hsortA : (List.insertionSort (fun a b => cmp a b ≤ 0) l).Pairwise
      (fun a b => cmp a b ≤ 0) := List.sorted_insertionSort _ l
  have hsortB : (List.insertionSort (fun a b => cmp b a ≤ 0) l).Pairwise
      (fun a b => cmp b a ≤ 0) := List.sorted_insertionSort _ l
  have hpermA := List.perm_insertionSort (fun a b => cmp a b ≤ 0) l
  have hpermB := List.perm_insertionSort (fun a b => cmp b a ≤ 0) l
  have hsymm : ∀ {x y : α}, cmp x y ≠ 0 → cmp y x ≠ 0 := by
    intro x y h
    have := hanti x y; omega
  have hneB : (List.insertionSort (fun a b => cmp b a ≤ 0) l).Pairwise
      (fun a b => cmp a b ≠ 0) := (hpermB.pairwise_iff hsymm).mpr hne
  have hneArev : (List.insertionSort (fun a b => cmp a b ≤ 0) l).reverse.Pairwise
      (fun a b => cmp a b ≠ 0) :=
    (((List.reverse_perm _).trans hpermA).pairwise_iff hsymm).mpr hne
  have hstrictB : (List.insertionSort (fun a b => cmp b a ≤ 0) l).Pairwise
      (fun a b => cmp b a < 0) := by
    refine (hsortB.and hneB).imp ?_
    intro a b hab
    have := hanti a b; omega
  have hstrictArev : (List.insertionSort (fun a b => cmp a b ≤ 0) l).reverse.Pairwise
      (fun a b => cmp b a < 0) := by
    have h1 : (List.insertionSort (fun a b => cmp a b ≤ 0) l).reverse.Pairwise
        (fun a b => cmp b a ≤ 0) := List.pairwise_reverse.mpr hsortA
    refine (h1.and hneArev).imp ?_
    intro a b hab
    have := hanti a b; omega
  haveI : IsAntisymm α (fun a b => cmp b a < 0) :=
    ⟨fun a b h1 h2 => absurd h2 (by have := hanti a b; omega)⟩
  have hperm : List.Perm (List.insertionSort (fun a b => cmp b a ≤ 0) l)
      (List.insertionSort (fun a b => cmp a b ≤ 0) l).reverse :=
    hpermB.trans (hpermA.symm.trans (List.reverse_perm _).symm)
  exact List.eq_of_perm_of_sorted hperm hstrictB hstrictArev

/-- C9: for each text sort key (name, email), sorting descending yields
exactly the reverse of sorting ascending whenever the key values are
pairwise distinct (with ties the stable sort instead keeps prior relative
order on both sides, and the lists need not be reverses). -/
theorem sortedUsers_text_desc_reverse_asc (users : List User) :
    ((users.map User.name).Nodup →
        sortedUsers users (some UserKey.name) SortDir.desc
          = (sortedUsers users (some UserKey.name) SortDir.asc).reverse) ∧
    ((users.map User.email).Nodup →
        sortedUsers users (some UserKey.email) SortDir.desc
          = (sortedUsers users (some UserKey.email) SortDir.asc).reverse) := by
  constructor
  · intro hnd
    have hne : users.Pairwise fun a b => localeCompare a.name b.name ≠ 0 :=
      (List.pairwise_map.mp hnd).imp
        (fun h hc => h ((localeCompare_eq_zero_iff _ _).mp hc))
    have hanti : ∀ a b : User, localeCompare b.name a.name = -localeCompare a.name b.name :=
      fun a b => lexCompareChars_anti a.name.data b.name.data
    have htr : ∀ a b c : User, localeCompare a.name b.name ≤ 0 →
        localeCompare b.name c.name ≤ 0 → localeCompare a.name c.name ≤ 0 :=
      fun a b c => lexCompareChars_le_trans a.name.data b.name.data c.name.data
    exact insertionSort_by_swapped_comparator_reverse
      (fun a b => localeCompare a.name b.name) hanti htr users hne
  · intro hnd
    have hne : users.Pairwise fun a b => localeCompare a.email b.email ≠ 0 :=
      (List.pairwise_map.mp hnd).imp
        (fun h hc => h ((localeCompare_eq_zero_iff _ _).mp hc))
    have hanti : ∀ a b : User, localeCompare b.email a.email = -localeCompare a.email b.email :=
      fun a b => lexCompareChars_anti a.email.data b.email.data
    have htr : ∀ a b c : User, localeCompare a.email b.email ≤ 0 →
        localeCompare b.email c.email ≤ 0 → localeCompare a.email c.email ≤ 0 :=
      fun a b c => lexCompareChars_le_trans a.email.data b.email.data c.email.data
    exact insertionSort_by_swapped_comparator_reverse
      (fun a b => localeCompare a.email b.email) hanti htr users hne

/-- Witness for `sortedUsers_text_desc_reverse_asc`: the shipped
collection has pairwise-distinct names, and descending name order is the
exact reverse of ascending name order. -/
theorem sortedUsers_text_desc_reverse_asc_witness :
    sortedUsers mockUsers (some UserKey.name) SortDir.desc
      = (sortedUsers mockUsers (some UserKey.name) SortDir.asc).reverse :=
  (sortedUsers_text_desc_reverse_asc mockUsers).1 (by decide)
